import Mathlib

/-!
Verification of the session/token lifecycle of the learnBackend user controller
(src/controllers/user.controllers.js in the repository; `part_000` here).

The controller is embedded shallowly: each Express handler becomes a pure Lean
function from an explicit database state `DB` and a request value to
`Except JsError (HttpRes × DB)`.  A thrown JS exception (an `ApiError`, a
`TypeError`, a JWT verification error, a Mongoose validation error) becomes the
`Except.error` case.  Code that the repository keeps outside the controller
(the Mongoose `User` model with its bcrypt password hook and JWT token methods,
the error-handling middleware, Cloudinary upload) is not under `src/`; those
definitions are modelled from the spec and say so in their doc comment.
-/

namespace LearnBackend

instance instDecEqExcept {ε α : Type} [DecidableEq ε] [DecidableEq α] :
    DecidableEq (Except ε α)
  | .ok x, .ok y =>
      match decEq x y with
      | isTrue h => isTrue (by rw [h])
      | isFalse h => isFalse (fun hh => h (Except.ok.inj hh))
  | .error x, .error y =>
      match decEq x y with
      | isTrue h => isTrue (by rw [h])
      | isFalse h => isFalse (fun hh => h (Except.error.inj hh))
  | .ok _, .error _ => isFalse (fun hh => Except.noConfusion hh)
  | .error _, .ok _ => isFalse (fun hh => Except.noConfusion hh)

/-- JS `String.prototype.trim`: strip leading and trailing whitespace.
Modelled executably over the character list (the core library's `trim` does
not reduce in the kernel). -/
def jsTrim (s : String) : String :=
  ⟨((s.data.dropWhile Char.isWhitespace).reverse.dropWhile
      Char.isWhitespace).reverse⟩

/-- JS `String.prototype.toLowerCase`, also the schema's lowercase
normalization: lowercase every character. -/
def jsToLower (s : String) : String := ⟨s.data.map Char.toLower⟩

/-- A JWT string, modelled abstractly.  `signed secret sub nonce exp` is the
output of `jwt.sign` with a given signing secret, subject `_id`, issue
counter (standing for the `iat` claim, which makes successive tokens distinct
strings) and expiry instant; `raw s` is any string that is not a token minted
by this process (a malformed or forged bearer string). -/
inductive TokenStr where
  | signed (secret : Nat) (sub : Nat) (nonce : Nat) (exp : Nat)
  | raw (s : String)
  deriving DecidableEq, Repr

/-- Modelled from the spec: the process-wide `ACCESS_TOKEN_SECRET`
configuration (env access happens in the user model, not in `src/`).  The two
secrets must differ; they are modelled as distinct constants. -/
def accessTokenSecret : Nat := 0

/-- Modelled from the spec: the process-wide `REFRESH_TOKEN_SECRET`
configuration, distinct from the access-token secret. -/
def refreshTokenSecret : Nat := 1

/-- Modelled from the spec: the configured refresh-token lifetime (days). -/
def refreshTokenExpiry : Nat := 10

/-- Modelled from the spec: the configured access-token lifetime (short:
minutes-to-low-hours range). -/
def accessTokenExpiry : Nat := 1

/-- A JS exception as observed by the handler wrappers: either an `ApiError`
carrying an HTTP status code and message, or a plain JS error (`TypeError`,
`JsonWebTokenError`, Mongoose `ValidationError`, bcrypt argument error)
carrying its constructor name and message. -/
inductive JsError where
  | api (statusCode : Nat) (message : String)
  | jsErr (name : String) (message : String)
  deriving DecidableEq, Repr

/-- The `.message` property of the thrown value, as read by the `catch` block
of `refreshAccessToken`. -/
def JsError.message : JsError → String
  | .api _ m => m
  | .jsErr _ m => m

/-- Modelled from the spec: the HTTP status under which the error middleware
(not in `src/`) reports a thrown value to the caller — an `ApiError` keeps its
status code, any other exception is an `InternalError` (500, unexpected). -/
def JsError.httpStatus : JsError → Nat
  | .api c _ => c
  | .jsErr _ _ => 500

/-- The stored `refreshToken` field of a Mongo document: absent (after
`$unset`), explicitly null, or holding a token string.  The distinction
between `unset` and `nullv` is observable in the serialized document. -/
inductive RTField where
  | unset
  | nullv
  | tok (t : TokenStr)
  deriving DecidableEq, Repr

/-- A stored user document (the fields of the `User` model that the lifecycle
controller reads or writes).  `password` holds the bcrypt hash. -/
structure UserRec where
  id : Nat
  username : String
  email : String
  password : String
  fullName : String
  avatar : String
  coverImage : String
  refreshToken : RTField
  deriving DecidableEq, Repr

/-- A JSON field value in a serialized document. -/
inductive FieldVal where
  | vStr (s : String)
  | vNull
  | vTok (t : TokenStr)
  | vNat (n : Nat)
  deriving DecidableEq, Repr

/-- Serializing a user document to its JSON key/value list.  An `unset`
refresh token contributes no key at all (Mongo `$unset` removes the field);
a null one contributes the key with a null value. -/
def UserRec.toDoc (u : UserRec) : List (String × FieldVal) :=
  [("_id", .vNat u.id), ("username", .vStr u.username),
   ("email", .vStr u.email), ("password", .vStr u.password),
   ("fullName", .vStr u.fullName), ("avatar", .vStr u.avatar),
   ("coverImage", .vStr u.coverImage)]
  ++ (match u.refreshToken with
      | .unset => []
      | .nullv => [("refreshToken", .vNull)]
      | .tok t => [("refreshToken", .vTok t)])

/-- Mongoose `.select("-a -b")`: drop the named keys from the document. -/
def selectExcluding (minus : List String) (doc : List (String × FieldVal)) :
    List (String × FieldVal) :=
  doc.filter (fun kv => !(minus.contains kv.1))

/-- Key lookup in a serialized document. -/
def docLookup (k : String) (doc : List (String × FieldVal)) : Option FieldVal :=
  (doc.find? (fun kv => kv.1 = k)).map (·.2)

/-- The database state: the user collection, a monotone token-issue counter
(models the passage of `iat` time stamps so that two mints never produce the
same token string), and the id the next created document receives. -/
structure DB where
  users : List UserRec
  nonce : Nat
  nextId : Nat
  deriving DecidableEq, Repr

/-- `User.findById`. -/
def DB.findById (db : DB) (id : Nat) : Option UserRec :=
  db.users.find? (fun u => u.id = id)

/-- Modelled from the spec: `User.findOne({$or: [{username}, {email}]})`.
The store and the `User` schema are not in `src/`; per the spec `username` is
unique case-normalized lowercase, so a username query matches after lowercase
normalization, while `email` matches exactly.  A field that is `undefined`
in the query (absent from the request body) matches nothing. -/
def DB.findByUsernameOrEmail (db : DB) (username email : Option String) :
    Option UserRec :=
  db.users.find? (fun u =>
    (match username with
     | some s => u.username = jsToLower s
     | none => false) ||
    (match email with
     | some e => u.email = e
     | none => false))

/-- `user.save(...)` after mutating a fetched document: write the document
back over every stored record with the same id. -/
def DB.saveUser (db : DB) (u : UserRec) : DB :=
  { db with users := db.users.map (fun v => if v.id = u.id then u else v) }

/-- Modelled from the spec: the `User` model's bcrypt pre-save hook (the model
file is not in `src/`).  Hashing is modelled as an injective tagging function;
what matters to the lifecycle is that the stored value determines and is
determined by the plaintext. -/
def hashPassword (s : String) : String := "bcrypt$" ++ s

/-- Modelled from the spec: `user.isPasswordCorrect(plain)` — bcrypt compare
of a submitted plaintext against the stored hash.  Calling it with an
`undefined` plaintext rejects with bcrypt's argument error, as the JS promise
would. -/
def isPasswordCorrect (storedHash : String) (plain : Option String) :
    Except JsError Bool :=
  match plain with
  | none => .error (.jsErr "Error" "data and hash arguments required")
  | some p => .ok (storedHash = hashPassword p)

/-- A payload decoded by `jwt.verify` (the `_id` claim). -/
structure JwtPayload where
  sub : Nat
  deriving DecidableEq, Repr

/-- Modelled from the spec: `jwt.verify(token, secret)` at current time `now`
(the TokenIssuer contract; the jsonwebtoken library is external).  A raw
string is malformed; a token signed with a different secret has an invalid
signature; a token past its expiry is expired; otherwise the subject claim is
returned. -/
def jwtVerify (secret now : Nat) : TokenStr → Except JsError JwtPayload
  | .raw _ => .error (.jsErr "JsonWebTokenError" "jwt malformed")
  | .signed s sub _ exp =>
      if s ≠ secret then .error (.jsErr "JsonWebTokenError" "invalid signature")
      else if exp ≤ now then .error (.jsErr "TokenExpiredError" "jwt expired")
      else .ok ⟨sub⟩

/-- `generateAccessAndRefreshToken(userId)`: fetch the user, mint an access
and a refresh token (modelled from the spec for the model's two token methods:
each carries the subject id, a fresh issue stamp and its class's expiry,
signed with that class's secret), store the refresh token on the user and
save it bypassing validation.  Any error inside — including the `TypeError`
from a null `findById` result — is caught and rethrown as the 500 `ApiError`. -/
def generateAccessAndRefreshToken (db : DB) (now userId : Nat) :
    Except JsError (TokenStr × TokenStr × DB) :=
  match db.findById userId with
  | none =>
      .error (.api 500
        "Something went wrong while generating refresh and access token")
  | some u =>
      let accessToken := TokenStr.signed accessTokenSecret u.id db.nonce
        (now + accessTokenExpiry)
      let refreshToken := TokenStr.signed refreshTokenSecret u.id (db.nonce + 1)
        (now + refreshTokenExpiry)
      let u' := { u with refreshToken := RTField.tok refreshToken }
      .ok (accessToken, refreshToken,
        { db.saveUser u' with nonce := db.nonce + 2 })

/-- The `req.files` object produced by the multer `.fields` middleware: for
each field name, possibly an array of uploaded files (their temp paths). -/
structure FilesObj where
  avatar : Option (List String)
  coverImage : Option (List String)
  deriving DecidableEq, Repr

/-- A register request: the four text body fields (each possibly absent from
the body, i.e. `undefined`) and `req.files` (absent when no multipart body
reached the handler). -/
structure RegisterReq where
  username : Option String
  email : Option String
  fullName : Option String
  password : Option String
  files : Option FilesObj
  deriving DecidableEq, Repr

/-- The validation predicate of `registerUser`:
`[fullName, email, username, password].some((field) => field?.trim() === "")`.
By JS optional-chaining semantics an absent (`undefined`) field yields
`undefined?.trim() === ""` which is `undefined === ""`, i.e. `false`: only a
present field that trims to the empty string triggers the check. -/
def fieldTrimsEmpty : Option String → Bool
  | some s => jsTrim s = ""
  | none => false

/-- The expression `req.files?.avatar[0].path`.  Optional chaining
short-circuits the whole member chain when `req.files` is nullish, yielding
`undefined` without error; but when `req.files` exists and has no `avatar`
array (or an empty one), the unguarded `[0].path` indexing throws a
`TypeError`. -/
def avatarLocalPathOf : Option FilesObj → Except JsError (Option String)
  | none => .ok none
  | some fo =>
      match fo.avatar with
      | none =>
          .error (.jsErr "TypeError"
            "Cannot read properties of undefined (reading '0')")
      | some [] =>
          .error (.jsErr "TypeError"
            "Cannot read properties of undefined (reading 'path')")
      | some (p :: _) => .ok (some p)

/-- The guarded cover-image extraction: only when `req.files` exists, its
`coverImage` is an array and the array is non-empty is `coverImage[0].path`
read; otherwise the local path stays `undefined`. -/
def coverImageLocalPathOf : Option FilesObj → Option String
  | none => none
  | some fo =>
      match fo.coverImage with
      | some (p :: _) => some p
      | _ => none

/-- `uploadOnCloudinary` lifted to a possibly-`undefined` local path: the
utility returns null when called without a path (as for the optional cover
image).  The upload behaviour itself is a parameter `upload` mapping a local
path to the hosted URL, or `none` on upload failure. -/
def uploadOpt (upload : String → Option String) : Option String → Option String
  | none => none
  | some p => upload p

/-- JS truthiness of a possibly-absent string: `undefined` and `""` are falsy. -/
def strTruthy : Option String → Bool
  | none => false
  | some s => s ≠ ""

/-- JS truthiness of a token string: of the modelled token strings only the
raw empty string is falsy. -/
def tokenStrTruthy : TokenStr → Bool
  | .raw s => s ≠ ""
  | _ => true

/-- JS truthiness of a possibly-absent token string (cookies and body carry
strings; `undefined` is falsy). -/
def tokenTruthy : Option TokenStr → Bool
  | none => false
  | some t => tokenStrTruthy t

/-- JS `a || b` on possibly-absent token strings. -/
def jsOrToken (a b : Option TokenStr) : Option TokenStr :=
  if tokenTruthy a then a else b

/-- The body `data` of an `ApiResponse`, per handler. -/
inductive ResBody where
  | userDoc (d : List (String × FieldVal))
  | loginData (user : List (String × FieldVal)) (accessToken refreshToken : TokenStr)
  | emptyObj
  | tokenPair (accessToken refreshToken : TokenStr)
  | newPasswordEcho (newPassword : String)
  deriving DecidableEq, Repr

/-- The HTTP response a handler returns: `res.status(...)`, the
`ApiResponse` status code and message inside the JSON body, its `data`, and
the cookie side effects. -/
structure HttpRes where
  status : Nat
  jsonCode : Nat
  data : ResBody
  message : String
  cookies : List (String × TokenStr)
  clearedCookies : List String
  deriving DecidableEq, Repr

/-- `User.create({...})`: evaluating the argument object first computes
`username.toLowerCase()`, which throws a `TypeError` when `username` is
absent.  The remaining required text fields are then checked by the schema
(modelled from the spec: the `User` model, not in `src/`, requires email,
fullName and password), the bcrypt pre-save hook hashes the password, and the
document is inserted with the next fresh id and no refresh-token field. -/
def dbCreateUser (db : DB) (username email fullName password : Option String)
    (avatarUrl coverImageUrl : String) : Except JsError (UserRec × DB) :=
  match username with
  | none =>
      .error (.jsErr "TypeError"
        "Cannot read properties of undefined (reading 'toLowerCase')")
  | some un =>
      match email, fullName, password with
      | some em, some fn, some pw =>
          let u : UserRec :=
            { id := db.nextId, username := jsToLower un, email := em,
              password := hashPassword pw, fullName := fn,
              avatar := avatarUrl, coverImage := coverImageUrl,
              refreshToken := RTField.unset }
          .ok (u, { db with users := db.users ++ [u], nextId := db.nextId + 1 })
      | _, _, _ =>
          .error (.jsErr "ValidationError" "User validation failed")

/-- The `registerUser` handler.  `upload` stands for `uploadOnCloudinary`. -/
def registerUser (upload : String → Option String) (db : DB)
    (req : RegisterReq) : Except JsError (HttpRes × DB) :=
  if [req.fullName, req.email, req.username, req.password].any fieldTrimsEmpty then
    .error (.api 400 "All field are required!")
  else match db.findByUsernameOrEmail req.username req.email with
  | some _ => .error (.api 409 "User with email or username already exsits")
  | none =>
    match avatarLocalPathOf req.files with
    | .error e => .error e
    | .ok avatarLocalPath =>
      if ¬ strTruthy avatarLocalPath then
        .error (.api 400 "Please provide a profile image")
      else match uploadOpt upload avatarLocalPath with
      | none => .error (.api 400 "Avatar file is required")
      | some avatarUrl =>
        match dbCreateUser db req.username req.email req.fullName
          req.password avatarUrl
          (match uploadOpt upload (coverImageLocalPathOf req.files) with
           | some cu => if cu = "" then "" else cu
           | none => "") with
        | .error e => .error e
        | .ok (user, db') =>
          match db'.findById user.id with
          | none =>
              .error (.api 500 "Something went wrong while registring the user!")
          | some created =>
              .ok ({ status := 201, jsonCode := 201,
                     data := ResBody.userDoc
                       (selectExcluding ["password", "refreshToken"]
                         created.toDoc),
                     message := "User registered successfully",
                     cookies := [], clearedCookies := [] }, db')

/-- A login request body. -/
structure LoginReq where
  username : Option String
  email : Option String
  password : Option String
  deriving DecidableEq, Repr

/-- The `loginUser` handler at current time `now`. -/
def loginUser (db : DB) (now : Nat) (req : LoginReq) :
    Except JsError (HttpRes × DB) :=
  if ¬ (strTruthy req.username || strTruthy req.email) then
    .error (.api 400 "Username or Email field is required")
  else match db.findByUsernameOrEmail req.username req.email with
  | none => .error (.api 404 "User does not Exist")
  | some user =>
    match isPasswordCorrect user.password req.password with
    | .error e => .error e
    | .ok pwOk =>
      if ¬ pwOk then .error (.api 401 "Incorrect Password")
      else match generateAccessAndRefreshToken db now user.id with
      | .error e => .error e
      | .ok (accessToken, refreshToken, db') =>
        match db'.findById user.id with
        | none => .error (.jsErr "TypeError" "loggedInUser is null")
        | some loggedInUser =>
            .ok ({ status := 200, jsonCode := 200,
                   data := ResBody.loginData
                     (selectExcluding
                       ["password", "refreshToken", "videoUpload", "watchHistory"]
                       loggedInUser.toDoc)
                     accessToken refreshToken,
                   message := "User logged In Successfully",
                   cookies := [("accessToken", accessToken),
                               ("refreshToken", refreshToken)],
                   clearedCookies := [] }, db')

/-- The `logoutUser` handler for the authenticated caller `req.user._id`.
`findByIdAndUpdate` with `$unset: {refreshToken: 1}` removes the stored
field; a missing user yields null, which the handler ignores. -/
def logoutUser (db : DB) (userId : Nat) : Except JsError (HttpRes × DB) :=
  let db' : DB :=
    { db with users := db.users.map (fun u =>
        if u.id = userId then { u with refreshToken := RTField.unset } else u) }
  .ok ({ status := 200, jsonCode := 200, data := ResBody.emptyObj,
         message := "User logout successfully",
         cookies := [],
         clearedCookies := ["accessToken", "refreshToken"] }, db')

/-- A refresh request: the token may arrive as the `refreshToken` cookie or
as the body field. -/
structure RefreshReq where
  cookieToken : Option TokenStr
  bodyToken : Option TokenStr
  deriving DecidableEq, Repr

/-- The body of the `try` block of `refreshAccessToken`. -/
def refreshAccessTokenTry (db : DB) (now : Nat) (req : RefreshReq) :
    Except JsError (HttpRes × DB) :=
  match jsOrToken req.cookieToken req.bodyToken with
  | none => .error (.api 401 "Unauthorized access")
  | some incoming =>
    if ¬ tokenStrTruthy incoming then .error (.api 401 "Unauthorized access")
    else match jwtVerify refreshTokenSecret now incoming with
    | .error e => .error e
    | .ok decodedToken =>
      match db.findById decodedToken.sub with
      | none => .error (.api 401 "Invalid refresh token")
      | some user =>
        if user.refreshToken ≠ RTField.tok incoming then
          .error (.api 401 "Refresh token expired")
        else match generateAccessAndRefreshToken db now user.id with
        | .error e => .error e
        | .ok (accessToken, refreshToken, db') =>
          .ok ({ status := 200, jsonCode := 201,
                 data := ResBody.tokenPair accessToken refreshToken,
                 message := "New access token created",
                 cookies := [("accessToken", accessToken),
                             ("refreshToken", refreshToken)],
                 clearedCookies := [] }, db')

/-- The `refreshAccessToken` handler: the whole body runs in a `try` whose
`catch` rethrows every error as `ApiError(401, error.message || "Invalid
refresh token")`. -/
def refreshAccessToken (db : DB) (now : Nat) (req : RefreshReq) :
    Except JsError (HttpRes × DB) :=
  match refreshAccessTokenTry db now req with
  | .ok r => .ok r
  | .error e =>
      .error (.api 401
        (if e.message = "" then "Invalid refresh token" else e.message))

/-- An update-password request: the optional body identification fields and
the two passwords, plus the authenticated caller id (`req.user?._id`) when
the auth middleware populated it. -/
structure UpdatePasswordReq where
  username : Option String
  email : Option String
  oldPassword : Option String
  newPassword : Option String
  deriving DecidableEq, Repr

/-- The `updatePassword` handler.  The user is resolved by the caller id
first, falling back to a username/email lookup; when neither resolves, the
unguarded `user.isPasswordCorrect` call throws a `TypeError` on null. -/
def updatePassword (db : DB) (authUserId : Option Nat)
    (req : UpdatePasswordReq) : Except JsError (HttpRes × DB) :=
  match (match authUserId with
         | some uid =>
             match db.findById uid with
             | some u => some u
             | none => db.findByUsernameOrEmail req.username req.email
         | none => db.findByUsernameOrEmail req.username req.email) with
  | none =>
      .error (.jsErr "TypeError"
        "Cannot read properties of null (reading 'isPasswordCorrect')")
  | some user =>
    match isPasswordCorrect user.password req.oldPassword with
    | .error e => .error e
    | .ok okOld =>
      if ¬ okOld then .error (.api 400 "Invalid old password")
      else match isPasswordCorrect user.password req.newPassword with
      | .error e => .error e
      | .ok existedPassword =>
        if existedPassword then
          .error (.api 406 "Your new password cannot same as old one")
        else match req.newPassword with
        | none => .error (.jsErr "Error" "data and hash arguments required")
        | some np =>
            .ok ({ status := 200, jsonCode := 200,
                   data := ResBody.newPasswordEcho np,
                   message := "Password changed successfully",
                   cookies := [], clearedCookies := [] },
                 db.saveUser { user with password := hashPassword np })

/-! ## Reachability invariant

Every refresh token the lifecycle stores is signed for its owner (`sub` is
the owner's id) and carries an issue stamp older than the database's
counter; both facts hold of every state the five handlers can produce. -/

/-- The stored refresh token of `u` (if any, and if a minted token) names `u`
as its subject and was issued before the counter value `dbNonce`. -/
def rtOwnerOk (dbNonce : Nat) (u : UserRec) : Bool :=
  match u.refreshToken with
  | .tok (.signed _ sub n _) => sub = u.id ∧ n < dbNonce
  | _ => true

/-- All stored refresh tokens are owner-consistent and older than the issue
counter. -/
def TokenInv (db : DB) : Prop :=
  ∀ u ∈ db.users, rtOwnerOk db.nonce u = true

/-! ## Helper lemmas -/

theorem docLookup_selectExcluding (minus : List String)
    (doc : List (String × FieldVal)) (k : String)
    (hk : minus.contains k = true) :
    docLookup k (selectExcluding minus doc) = none := by
  have : (selectExcluding minus doc).find? (fun kv => kv.1 = k) = none := by
    rw [List.find?_eq_none]
    intro kv hkv
    have hmem := List.mem_filter.mp hkv
    intro hkk
    have h1 : minus.contains kv.1 = false := by
      simpa using hmem.2
    rw [show kv.1 = k from by simpa using hkk] at h1
    rw [hk] at h1
    simp at h1
  simp [docLookup, this]

theorem find_replace_pres (l : List UserRec) (g : UserRec → UserRec)
    (a b : Nat) (hg : ∀ v : UserRec, v.id = a → (g v).id = a) :
    (l.map (fun v => if v.id = a then g v else v)).find?
        (fun v => v.id = b) =
      (l.find? (fun v => v.id = b)).map
        (fun v => if v.id = a then g v else v) := by
  induction l with
  | nil => rfl
  | cons x t ih =>
    have hid : (if x.id = a then g x else x).id = x.id := by
      by_cases hx : x.id = a
      · rw [if_pos hx, hg x hx, hx]
      · rw [if_neg hx]
    by_cases hb : x.id = b
    · rw [List.map_cons,
        List.find?_cons_of_pos _ (by rw [hid]; simp [hb]),
        List.find?_cons_of_pos _ (by simp [hb]),
        Option.map_some']
    · rw [List.map_cons,
        List.find?_cons_of_neg _ (by rw [hid]; simp [hb]),
        List.find?_cons_of_neg _ (by simp [hb]),
        ih]

theorem findById_saveUser (db : DB) (u' : UserRec) (b : Nat) :
    (db.saveUser u').findById b =
      (db.findById b).map (fun v => if v.id = u'.id then u' else v) := by
  unfold DB.saveUser DB.findById
  exact find_replace_pres db.users (fun _ => u') u'.id b (fun _ _ => rfl)

theorem findById_id_eq (db : DB) (b : Nat) (u : UserRec)
    (h : db.findById b = some u) : u.id = b := by
  have := List.find?_some h
  simpa using this

theorem findById_mem (db : DB) (b : Nat) (u : UserRec)
    (h : db.findById b = some u) : u ∈ db.users :=
  List.mem_of_find?_eq_some h

/-! ## Concrete fixtures used by the witnesses -/

/-- An always-succeeding Cloudinary stand-in. -/
def uploadW : String → Option String := fun p => some ("cdn/" ++ p)

/-- The empty store. -/
def dbEmpty : DB := ⟨[], 0, 1⟩

/-- A well-formed register request for Alice. -/
def regReqW : RegisterReq :=
  ⟨some "Alice", some "a@x.com", some "Alice A", some "p1",
    some ⟨some ["av.png"], none⟩⟩

/-- Alice's stored record right after registration. -/
def aliceRec : UserRec :=
  ⟨1, "alice", "a@x.com", hashPassword "p1", "Alice A", "cdn/av.png", "",
    RTField.unset⟩

/-- The store after Alice registered. -/
def dbAlice : DB := ⟨[aliceRec], 0, 2⟩

/-- The sanitized register response body for Alice. -/
def regResW : HttpRes :=
  ⟨201, 201,
    ResBody.userDoc
      [("_id", .vNat 1), ("username", .vStr "alice"),
       ("email", .vStr "a@x.com"), ("fullName", .vStr "Alice A"),
       ("avatar", .vStr "cdn/av.png"), ("coverImage", .vStr "")],
    "User registered successfully", [], []⟩

/-- The refresh token minted for Alice by a login at time 5. -/
def rtW : TokenStr := .signed refreshTokenSecret 1 1 15

/-- Alice's record with the login-issued refresh token stored. -/
def aliceLoggedIn : UserRec := { aliceRec with refreshToken := RTField.tok rtW }

/-- The store after Alice logged in at time 5. -/
def dbLoggedIn : DB := ⟨[aliceLoggedIn], 2, 2⟩

theorem findById_set_nonce (db : DB) (k b : Nat) :
    ({ db with nonce := k } : DB).findById b = db.findById b := rfl

theorem gen_ok_inv (db0 : DB) (now0 uid : Nat) (a r : TokenStr) (db1 : DB)
    (h : generateAccessAndRefreshToken db0 now0 uid = .ok (a, r, db1)) :
    ∃ u, db0.findById uid = some u ∧
      a = TokenStr.signed accessTokenSecret u.id db0.nonce
        (now0 + accessTokenExpiry) ∧
      r = TokenStr.signed refreshTokenSecret u.id (db0.nonce + 1)
        (now0 + refreshTokenExpiry) ∧
      db1 = { db0.saveUser { u with refreshToken := RTField.tok r } with
                nonce := db0.nonce + 2 } := by
  unfold generateAccessAndRefreshToken at h
  split at h
  · exact Except.noConfusion h
  rename_i u hfind
  have h3 := Except.ok.inj h
  simp only [Prod.mk.injEq] at h3
  obtain ⟨ha, hr, hdb⟩ := h3
  exact ⟨u, hfind, ha.symm, hr.symm, by rw [← hr, ← hdb]⟩

theorem jwtVerify_ok_inv (secret now0 : Nat) (t : TokenStr) (p : JwtPayload)
    (h : jwtVerify secret now0 t = .ok p) :
    ∃ n e, t = .signed secret p.sub n e ∧ now0 < e := by
  cases t with
  | raw s => exact Except.noConfusion h
  | signed s sub n e =>
    simp only [jwtVerify] at h
    split at h
    · exact Except.noConfusion h
    rename_i hs
    split at h
    · exact Except.noConfusion h
    rename_i hexp
    have hss : s = secret := not_not.mp hs
    have hp : p = ⟨sub⟩ := (Except.ok.inj h).symm
    exact ⟨n, e, by rw [hss, hp], by omega⟩

theorem refreshTry_ok_inv (db0 : DB) (now0 : Nat) (req0 : RefreshReq)
    (res0 : HttpRes) (db1 : DB)
    (h : refreshAccessTokenTry db0 now0 req0 = .ok (res0, db1)) :
    ∃ t n e u rt2,
      jsOrToken req0.cookieToken req0.bodyToken = some t ∧
      t = TokenStr.signed refreshTokenSecret u.id n e ∧ now0 < e ∧
      db0.findById u.id = some u ∧ u.refreshToken = RTField.tok t ∧
      rt2 = TokenStr.signed refreshTokenSecret u.id (db0.nonce + 1)
        (now0 + refreshTokenExpiry) ∧
      db1 = { db0.saveUser { u with refreshToken := RTField.tok rt2 } with
                nonce := db0.nonce + 2 } := by
  unfold refreshAccessTokenTry at h
  split at h
  · exact Except.noConfusion h
  rename_i incoming heqinc
  split at h
  · exact Except.noConfusion h
  split at h
  · exact Except.noConfusion h
  rename_i decoded hjwt
  split at h
  · exact Except.noConfusion h
  rename_i user hfind
  split at h
  · exact Except.noConfusion h
  rename_i hstored
  split at h
  · exact Except.noConfusion h
  rename_i a r db2 hgen
  have h3 := Except.ok.inj h
  simp only [Prod.mk.injEq] at h3
  obtain ⟨-, hdb⟩ := h3
  obtain ⟨w, hw, ha, hr, hdbx⟩ := gen_ok_inv db0 now0 user.id a r db2 hgen
  have huid : user.id = decoded.sub := findById_id_eq db0 decoded.sub user hfind
  have hwu : w = user := by
    rw [huid, hfind] at hw
    exact (Option.some.inj hw).symm
  subst hwu
  obtain ⟨n, e, htok, hlt⟩ :=
    jwtVerify_ok_inv refreshTokenSecret now0 incoming decoded hjwt
  refine ⟨incoming, n, e, w, r, heqinc, ?_, hlt, ?_, not_not.mp hstored, hr,
    ?_⟩
  · rw [htok, huid]
  · rw [huid]; exact hfind
  · rw [← hdb]; exact hdbx

theorem refreshTry_fails_of_stale (db2 : DB) (now2 : Nat) (req2 : RefreshReq)
    (s sub n e : Nat) (u' : UserRec)
    (h2 : jsOrToken req2.cookieToken req2.bodyToken =
      some (.signed s sub n e))
    (hfind : db2.findById sub = some u')
    (hne : u'.refreshToken ≠ RTField.tok (.signed s sub n e)) :
    ∃ e0, refreshAccessTokenTry db2 now2 req2 = .error e0 := by
  by_cases hs : s = refreshTokenSecret
  · subst hs
    by_cases hexp : e ≤ now2
    · exact ⟨.jsErr "TokenExpiredError" "jwt expired",
        by simp [refreshAccessTokenTry, h2, tokenStrTruthy, jwtVerify, hexp]⟩
    · exact ⟨.api 401 "Refresh token expired",
        by simp [refreshAccessTokenTry, h2, tokenStrTruthy, jwtVerify, hexp,
          hfind, hne]⟩
  · exact ⟨.jsErr "JsonWebTokenError" "invalid signature",
      by simp [refreshAccessTokenTry, h2, tokenStrTruthy, jwtVerify, hs]⟩

theorem refreshTry_raw_fails (db2 : DB) (now2 : Nat) (req2 : RefreshReq)
    (s : String)
    (h2 : jsOrToken req2.cookieToken req2.bodyToken = some (.raw s)) :
    ∃ e0, refreshAccessTokenTry db2 now2 req2 = .error e0 := by
  by_cases hs : s = ""
  · exact ⟨.api 401 "Unauthorized access",
      by simp [refreshAccessTokenTry, h2, tokenStrTruthy, hs]⟩
  · exact ⟨.jsErr "JsonWebTokenError" "jwt malformed",
      by simp [refreshAccessTokenTry, h2, tokenStrTruthy, hs, jwtVerify]⟩

theorem refresh_wrapper_error (db2 : DB) (now2 : Nat) (req2 : RefreshReq)
    (e0 : JsError) (h : refreshAccessTokenTry db2 now2 req2 = .error e0) :
    refreshAccessToken db2 now2 req2 =
      .error (.api 401
        (if e0.message = "" then "Invalid refresh token" else e0.message)) := by
  unfold refreshAccessToken
  rw [h]

theorem docLookup_id_select (minus : List String) (u : UserRec)
    (hm : minus.contains "_id" = false) :
    docLookup "_id" (selectExcluding minus u.toDoc) = some (.vNat u.id) := by
  simp [docLookup, selectExcluding, UserRec.toDoc, hm]
  exact ⟨"_id", Or.inl ⟨by simpa using hm, rfl⟩⟩

/-! ## TokenInv is a reachability invariant

It holds of the empty store and is preserved by every one of the five
lifecycle handlers, so every state the service can reach satisfies it; the
claims about stale-token rejection assume it. -/

theorem rtOwnerOk_mono (n1 n2 : Nat) (u : UserRec) (hle : n1 ≤ n2)
    (h : rtOwnerOk n1 u = true) : rtOwnerOk n2 u = true := by
  cases hrt : u.refreshToken with
  | unset => simp [rtOwnerOk, hrt]
  | nullv => simp [rtOwnerOk, hrt]
  | tok t =>
    cases t with
    | raw s => simp [rtOwnerOk, hrt]
    | signed s sub n e =>
        simp [rtOwnerOk, hrt] at h ⊢
        exact ⟨h.1, lt_of_lt_of_le h.2 hle⟩

theorem TokenInv_empty : TokenInv dbEmpty := by
  intro u hu
  simp [dbEmpty] at hu

theorem TokenInv_gen (db : DB) (now uid : Nat) (a r : TokenStr) (db1 : DB)
    (hinv : TokenInv db)
    (h : generateAccessAndRefreshToken db now uid = .ok (a, r, db1)) :
    TokenInv db1 := by
  obtain ⟨u, hu, ha, hr, hdb⟩ := gen_ok_inv db now uid a r db1 h
  subst hdb
  intro v hv
  have hv' : v ∈ db.users.map (fun w =>
      if w.id = ({ u with refreshToken := RTField.tok r } : UserRec).id then
        { u with refreshToken := RTField.tok r } else w) := hv
  obtain ⟨w, hw, hwv⟩ := List.mem_map.mp hv'
  show rtOwnerOk (db.nonce + 2) v = true
  subst hwv
  by_cases hc : w.id = ({ u with refreshToken := RTField.tok r } :
      UserRec).id
  · rw [if_pos hc]
    simp [rtOwnerOk, hr]
  · rw [if_neg hc]
    exact rtOwnerOk_mono db.nonce (db.nonce + 2) w (by omega) (hinv w hw)

theorem loginUser_ok_gen (db db' : DB) (now : Nat) (req : LoginReq)
    (res : HttpRes) (h : loginUser db now req = .ok (res, db')) :
    ∃ uid a r, generateAccessAndRefreshToken db now uid = .ok (a, r, db') := by
  unfold loginUser at h
  split at h
  · exact Except.noConfusion h
  split at h
  · exact Except.noConfusion h
  rename_i user hfound
  split at h
  · exact Except.noConfusion h
  split at h
  · exact Except.noConfusion h
  split at h
  · exact Except.noConfusion h
  rename_i a r db2 hgen
  split at h
  · exact Except.noConfusion h
  have h3 := Except.ok.inj h
  simp only [Prod.mk.injEq] at h3
  exact ⟨user.id, a, r, h3.2 ▸ hgen⟩

theorem TokenInv_login (db db' : DB) (now : Nat) (req : LoginReq)
    (res : HttpRes) (hinv : TokenInv db)
    (h : loginUser db now req = .ok (res, db')) : TokenInv db' := by
  obtain ⟨uid, a, r, hgen⟩ := loginUser_ok_gen db db' now req res h
  exact TokenInv_gen db now uid a r db' hinv hgen

theorem refresh_ok_gen (db db' : DB) (now : Nat) (req : RefreshReq)
    (res : HttpRes) (h : refreshAccessToken db now req = .ok (res, db')) :
    ∃ uid a r, generateAccessAndRefreshToken db now uid = .ok (a, r, db') := by
  unfold refreshAccessToken at h
  cases htry : refreshAccessTokenTry db now req with
  | error e => rw [htry] at h; exact Except.noConfusion h
  | ok rr =>
    rw [htry] at h
    have hrr := Except.ok.inj h
    subst hrr
    unfold refreshAccessTokenTry at htry
    split at htry
    · exact Except.noConfusion htry
    split at htry
    · exact Except.noConfusion htry
    split at htry
    · exact Except.noConfusion htry
    split at htry
    · exact Except.noConfusion htry
    rename_i user hfind
    split at htry
    · exact Except.noConfusion htry
    split at htry
    · exact Except.noConfusion htry
    rename_i a r db2 hgen
    have h3 := Except.ok.inj htry
    simp only [Prod.mk.injEq] at h3
    exact ⟨user.id, a, r, h3.2 ▸ hgen⟩

theorem TokenInv_refresh (db db' : DB) (now : Nat) (req : RefreshReq)
    (res : HttpRes) (hinv : TokenInv db)
    (h : refreshAccessToken db now req = .ok (res, db')) : TokenInv db' := by
  obtain ⟨uid, a, r, hgen⟩ := refresh_ok_gen db db' now req res h
  exact TokenInv_gen db now uid a r db' hinv hgen

theorem TokenInv_logout (db db' : DB) (uid : Nat) (res : HttpRes)
    (hinv : TokenInv db) (h : logoutUser db uid = .ok (res, db')) :
    TokenInv db' := by
  unfold logoutUser at h
  have h3 := Except.ok.inj h
  simp only [Prod.mk.injEq] at h3
  obtain ⟨-, hdb⟩ := h3
  intro v hv
  rw [← hdb] at hv
  obtain ⟨w, hw, hwv⟩ := List.mem_map.mp hv
  have hnonce : db'.nonce = db.nonce := by rw [← hdb]
  rw [hnonce]
  subst hwv
  by_cases hc : w.id = uid
  · rw [if_pos hc]
    simp [rtOwnerOk]
  · rw [if_neg hc]
    exact hinv w hw

theorem resolved_user_mem (db : DB) (auth : Option Nat)
    (qu qe : Option String) (user : UserRec)
    (hfound : (match auth with
      | some uid =>
          match db.findById uid with
          | some u => some u
          | none => db.findByUsernameOrEmail qu qe
      | none => db.findByUsernameOrEmail qu qe) = some user) :
    user ∈ db.users := by
  cases auth with
  | none => exact List.mem_of_find?_eq_some hfound
  | some uid =>
    have hfound' : (match db.findById uid with
        | some u => some u
        | none => db.findByUsernameOrEmail qu qe) = some user := hfound
    cases hfid : db.findById uid with
    | some u =>
        rw [hfid] at hfound'
        simp at hfound'
        exact hfound' ▸ findById_mem db uid u hfid
    | none =>
        rw [hfid] at hfound'
        exact List.mem_of_find?_eq_some hfound'

theorem TokenInv_updatePassword (db db' : DB) (auth : Option Nat)
    (req : UpdatePasswordReq) (res : HttpRes) (hinv : TokenInv db)
    (h : updatePassword db auth req = .ok (res, db')) : TokenInv db' := by
  unfold updatePassword at h
  split at h
  · exact Except.noConfusion h
  rename_i user hfound
  split at h
  · exact Except.noConfusion h
  split at h
  · exact Except.noConfusion h
  split at h
  · exact Except.noConfusion h
  split at h
  · exact Except.noConfusion h
  split at h
  · exact Except.noConfusion h
  rename_i np' hnp'
  have h3 := Except.ok.inj h
  simp only [Prod.mk.injEq] at h3
  obtain ⟨-, hdb⟩ := h3
  intro v hv
  rw [← hdb] at hv
  obtain ⟨w, hw, hwv⟩ := List.mem_map.mp hv
  have hnonce : db'.nonce = db.nonce := by rw [← hdb]; rfl
  rw [hnonce]
  subst hwv
  by_cases hc : w.id = ({ user with password := hashPassword np' } :
      UserRec).id
  · rw [if_pos hc]
    have hmem : user ∈ db.users :=
      resolved_user_mem db auth req.username req.email user hfound
    have hok := hinv user hmem
    cases hrt : user.refreshToken with
    | unset => simp [rtOwnerOk, hrt]
    | nullv => simp [rtOwnerOk, hrt]
    | tok t =>
      cases t with
      | raw s => simp [rtOwnerOk, hrt]
      | signed s sub n e =>
          simp [rtOwnerOk, hrt] at hok ⊢
          exact hok
  · rw [if_neg hc]
    exact hinv w hw

theorem TokenInv_register (upload : String → Option String) (db db' : DB)
    (req : RegisterReq) (res : HttpRes) (hinv : TokenInv db)
    (h : registerUser upload db req = .ok (res, db')) : TokenInv db' := by
  unfold registerUser at h
  split at h
  · exact Except.noConfusion h
  split at h
  · exact Except.noConfusion h
  split at h
  · exact Except.noConfusion h
  split at h
  · exact Except.noConfusion h
  split at h
  · exact Except.noConfusion h
  split at h
  · exact Except.noConfusion h
  rename_i user db2 hcreate
  split at h
  · exact Except.noConfusion h
  rename_i created hfind
  have h3 := Except.ok.inj h
  simp only [Prod.mk.injEq] at h3
  obtain ⟨-, hdb⟩ := h3
  unfold dbCreateUser at hcreate
  split at hcreate
  · exact Except.noConfusion hcreate
  split at hcreate
  · have h3c := Except.ok.inj hcreate
    simp only [Prod.mk.injEq] at h3c
    obtain ⟨-, hdb2⟩ := h3c
    intro v hv
    rw [← hdb, ← hdb2] at hv
    have hnonce : db'.nonce = db.nonce := by rw [← hdb, ← hdb2]
    rw [hnonce]
    rcases List.mem_append.mp hv with hvold | hvnew
    · exact hinv v hvold
    · rw [List.mem_singleton.mp hvnew]
      simp [rtOwnerOk]
  · exact Except.noConfusion hcreate

/-! ## Further fixtures for witnesses -/

/-- The login response for Alice at time 5. -/
def loginResW : HttpRes :=
  ⟨200, 200,
    ResBody.loginData
      [("_id", .vNat 1), ("username", .vStr "alice"),
       ("email", .vStr "a@x.com"), ("fullName", .vStr "Alice A"),
       ("avatar", .vStr "cdn/av.png"), ("coverImage", .vStr "")]
      (.signed accessTokenSecret 1 0 6) (.signed refreshTokenSecret 1 1 15),
    "User logged In Successfully",
    [("accessToken", .signed accessTokenSecret 1 0 6),
     ("refreshToken", .signed refreshTokenSecret 1 1 15)], []⟩

/-- The response minted by refreshing Alice's login token at time 6. -/
def refreshResW : HttpRes :=
  ⟨200, 201,
    ResBody.tokenPair (.signed accessTokenSecret 1 2 7)
      (.signed refreshTokenSecret 1 3 16),
    "New access token created",
    [("accessToken", .signed accessTokenSecret 1 2 7),
     ("refreshToken", .signed refreshTokenSecret 1 3 16)], []⟩

/-- The store after that refresh: rotated token, counter advanced. -/
def dbRefreshed : DB :=
  ⟨[{ aliceRec with
        refreshToken := RTField.tok (.signed refreshTokenSecret 1 3 16) }],
    4, 2⟩

/-- The store after logging Alice out. -/
def dbLoggedOut : DB := ⟨[aliceRec], 2, 2⟩

/-- The logout response. -/
def logoutResW : HttpRes :=
  ⟨200, 200, ResBody.emptyObj, "User logout successfully", [],
    ["accessToken", "refreshToken"]⟩

/-- Alice's record after changing the password to `p2`. -/
def alicePw2 : UserRec := { aliceLoggedIn with password := hashPassword "p2" }

/-- The store after the password change. -/
def dbPw2 : DB := ⟨[alicePw2], 2, 2⟩

/-- The change-password success response. -/
def pwResW : HttpRes :=
  ⟨200, 200, ResBody.newPasswordEcho "p2", "Password changed successfully",
    [], []⟩

/-! ## Claims -/

/-- C3: for every Register call that succeeds, the identity object returned
to the caller contains neither the password hash field nor the
`refreshToken` field — the handler returns the stored record through
`.select("-password -refreshToken")`. -/
theorem register_strips_credentials
    (upload : String → Option String) (db db' : DB) (req : RegisterReq)
    (res : HttpRes)
    (h : registerUser upload db req = .ok (res, db')) :
    ∃ d, res.data = ResBody.userDoc d ∧
      docLookup "password" d = none ∧ docLookup "refreshToken" d = none := by
  unfold registerUser at h
  repeat' split at h
  any_goals exact Except.noConfusion h
  obtain ⟨hres, -⟩ := Prod.mk.injEq .. ▸ Except.ok.inj h
  subst hres
  exact ⟨_, rfl,
    docLookup_selectExcluding _ _ _ (by decide),
    docLookup_selectExcluding _ _ _ (by decide)⟩

/-- C3 witness: Alice's registration against the empty store. -/
theorem register_strips_credentials_witness :
    ∃ d, regResW.data = ResBody.userDoc d ∧
      docLookup "password" d = none ∧ docLookup "refreshToken" d = none :=
  register_strips_credentials uploadW dbEmpty dbAlice regReqW regResW
    (by decide)

/-- C5 (the code at the failing input): a Register request whose `username`
field is absent entirely is not caught by the emptiness validation — JS
evaluates `undefined?.trim() === ""` to `false` — and the handler crashes
with a `TypeError` at `username.toLowerCase()`, which surfaces as a 500
internal error, not the specified 400 `ValidationError`. -/
theorem register_missing_username_not_400 :
    registerUser uploadW dbEmpty { regReqW with username := none } =
      .error (.jsErr "TypeError"
        "Cannot read properties of undefined (reading 'toLowerCase')") ∧
    (JsError.jsErr "TypeError"
      "Cannot read properties of undefined (reading 'toLowerCase')").httpStatus
        = 500 := by
  decide

/-- C6: a Register request whose username matches an existing record after
lowercase case-normalization, or whose email matches exactly, fails with the
409 conflict error (and, the embedding returning no successor state on an
error, creates no second record). -/
theorem register_duplicate_conflict
    (upload : String → Option String) (db : DB) (req : RegisterReq)
    (u : UserRec) (hu : u ∈ db.users)
    (hvalid : [req.fullName, req.email, req.username, req.password].any
      fieldTrimsEmpty = false)
    (hdup : (∃ s, req.username = some s ∧ u.username = jsToLower s) ∨
            (∃ e, req.email = some e ∧ u.email = e)) :
    registerUser upload db req =
      .error (.api 409 "User with email or username already exsits") := by
  have hpred : ((match req.username with
       | some s => decide (u.username = jsToLower s)
       | none => false) ||
      (match req.email with
       | some e => decide (u.email = e)
       | none => false)) = true := by
    rcases hdup with ⟨s, hs, hus⟩ | ⟨e, he, hue⟩
    · simp [hs, hus]
    · simp [he, hue]
  have hsome : (db.findByUsernameOrEmail req.username req.email).isSome := by
    unfold DB.findByUsernameOrEmail
    rw [List.find?_isSome]
    exact ⟨u, hu, hpred⟩
  obtain ⟨w, hw⟩ := Option.isSome_iff_exists.mp hsome
  unfold registerUser
  rw [if_neg (by simp [hvalid]), hw]

/-- C6 witness: registering `ALICE` (different case, fresh email) against the
store already holding `alice`. -/
theorem register_duplicate_conflict_witness :
    registerUser uploadW dbAlice
      { regReqW with username := some "ALICE", email := some "b@y.com" } =
      .error (.api 409 "User with email or username already exsits") :=
  register_duplicate_conflict uploadW dbAlice
    { regReqW with username := some "ALICE", email := some "b@y.com" }
    aliceRec (by decide) (by decide)
    (Or.inl ⟨"ALICE", rfl, by decide⟩)

/-- C7 amended: every failure of Refresh surfaces with status 401 (the
`catch` block rethrows anything as `ApiError(401, ...)`); the message it
carries, however, is the inner error's message. -/
theorem refresh_failures_all_401 (db : DB) (now : Nat) (req : RefreshReq)
    (e : JsError) (h : refreshAccessToken db now req = .error e) :
    ∃ msg, e = .api 401 msg := by
  unfold refreshAccessToken at h
  cases htry : refreshAccessTokenTry db now req with
  | ok r => rw [htry] at h; simp at h
  | error e0 =>
      rw [htry] at h
      simp only [Except.error.injEq] at h
      exact ⟨_, h.symm⟩

/-- C7 amended witness: the missing-token failure is a 401. -/
theorem refresh_failures_all_401_witness :
    ∃ msg, JsError.api 401 "Unauthorized access" = .api 401 msg :=
  refresh_failures_all_401 dbLoggedIn 6 ⟨none, none⟩
    (.api 401 "Unauthorized access") (by decide)

/-- C7 counterexample: two different Refresh failure paths answer with
different messages ("Unauthorized access" for a missing token, "jwt
malformed" for a forged one), so the caller can tell which underlying check
failed — the claim's "without exposing which check failed" is false. -/
theorem refresh_error_message_leak :
    refreshAccessToken dbLoggedIn 6 ⟨none, none⟩ =
      .error (.api 401 "Unauthorized access") ∧
    refreshAccessToken dbLoggedIn 6 ⟨some (.raw "junk"), none⟩ =
      .error (.api 401 "jwt malformed") ∧
    "Unauthorized access" ≠ "jwt malformed" := by
  decide

/-- C9 amended: when `req.files` is present but carries no avatar entry (or
an empty one), the unguarded `req.files?.avatar[0].path` indexing throws a
`TypeError` before the dedicated 400 check is reached, and the caller gets a
500-class internal error. -/
theorem register_files_without_avatar_type_error
    (upload : String → Option String) (db : DB) (req : RegisterReq)
    (fo : FilesObj)
    (hfiles : req.files = some fo)
    (hav : fo.avatar = none ∨ fo.avatar = some [])
    (hvalid : [req.fullName, req.email, req.username, req.password].any
      fieldTrimsEmpty = false)
    (hnodup : db.findByUsernameOrEmail req.username req.email = none) :
    ∃ msg, registerUser upload db req = .error (.jsErr "TypeError" msg) ∧
      (JsError.jsErr "TypeError" msg).httpStatus = 500 := by
  unfold registerUser
  rw [if_neg (by simp [hvalid]), hnodup, hfiles]
  rcases hav with hav | hav
  · simp only [avatarLocalPathOf, hav]
    exact ⟨_, rfl, rfl⟩
  · simp only [avatarLocalPathOf, hav]
    exact ⟨_, rfl, rfl⟩

/-- C9 amended witness: a request whose files object holds only a cover
image. -/
theorem register_files_without_avatar_type_error_witness :
    ∃ msg, registerUser uploadW dbEmpty
        { regReqW with files := some ⟨none, some ["c.png"]⟩ } =
        .error (.jsErr "TypeError" msg) ∧
      (JsError.jsErr "TypeError" msg).httpStatus = 500 :=
  register_files_without_avatar_type_error uploadW dbEmpty
    { regReqW with files := some ⟨none, some ["c.png"]⟩ }
    ⟨none, some ["c.png"]⟩ rfl (Or.inl rfl) (by decide) (by decide)

/-- C9 counterexample: a Register request that carries no avatar because it
has no `req.files` object at all does NOT throw a `TypeError` — optional
chaining short-circuits the whole indexing chain — and the dedicated
"Please provide a profile image" 400 branch IS reached, contradicting the
claim's "for every Register request that carries no avatar file at all". -/
theorem register_absent_files_reaches_400 :
    registerUser uploadW dbEmpty { regReqW with files := none } =
      .error (.api 400 "Please provide a profile image") := by
  decide

/-- C10: every successful ChangePassword responds 200 and echoes the
plaintext new password back in the body as `newPassword`. -/
theorem update_password_echoes_plaintext
    (db db' : DB) (auth : Option Nat) (req : UpdatePasswordReq)
    (res : HttpRes) (np : String)
    (hnp : req.newPassword = some np)
    (h : updatePassword db auth req = .ok (res, db')) :
    res.status = 200 ∧ res.data = ResBody.newPasswordEcho np := by
  unfold updatePassword at h
  repeat' split at h
  any_goals exact Except.noConfusion h
  obtain ⟨hres, -⟩ := Prod.mk.injEq .. ▸ Except.ok.inj h
  subst hres
  simp_all

/-- C10 witness: Alice changes her password from `p1` to `p2`. -/
theorem update_password_echoes_plaintext_witness :
    pwResW.status = 200 ∧ pwResW.data = ResBody.newPasswordEcho "p2" :=
  update_password_echoes_plaintext dbLoggedIn dbPw2 (some 1)
    ⟨none, none, some "p1", some "p2"⟩ pwResW "p2" rfl (by decide)

/-- C1: once a refresh token has been successfully exchanged via Refresh —
which mints a fresh pair and overwrites the stored refresh token — any later
Refresh presenting that same token fails with a 401 Unauthenticated-class
error: a refresh token is redeemable at most once before being replaced. -/
theorem refresh_token_single_use
    (db db' : DB) (now now2 : Nat) (t : TokenStr) (res : HttpRes)
    (req2 : RefreshReq)
    (hinv : TokenInv db)
    (h : refreshAccessToken db now ⟨some t, none⟩ = .ok (res, db'))
    (h2 : jsOrToken req2.cookieToken req2.bodyToken = some t) :
    ∃ msg, refreshAccessToken db' now2 req2 = .error (.api 401 msg) := by
  unfold refreshAccessToken at h
  cases htry : refreshAccessTokenTry db now ⟨some t, none⟩ with
  | error e0 => rw [htry] at h; exact Except.noConfusion h
  | ok rr =>
    rw [htry] at h
    have hrr := Except.ok.inj h
    obtain ⟨t0, n, e, u, rt2, hjs, htok, hlt, hfind, hstored, hrt2, hdb1⟩ :=
      refreshTry_ok_inv db now ⟨some t, none⟩ res db'
        (htry.trans (congrArg Except.ok hrr))
    have ht0 : t0 = t := by
      unfold jsOrToken at hjs
      split at hjs
      · exact (Option.some.inj hjs).symm
      · exact Option.noConfusion hjs
    subst ht0
    have hmem : u ∈ db.users := findById_mem db u.id u hfind
    have hn : n < db.nonce := by
      have hok := hinv u hmem
      simp [rtOwnerOk, hstored, htok] at hok
      exact hok
    have hfind2 : db'.findById u.id =
        some { u with refreshToken := RTField.tok rt2 } := by
      rw [hdb1, findById_set_nonce, findById_saveUser, hfind]
      simp
    have hne : ({ u with refreshToken := RTField.tok rt2 } :
        UserRec).refreshToken ≠
        RTField.tok (.signed refreshTokenSecret u.id n e) := by
      simp [hrt2]
      omega
    obtain ⟨e0, htry2⟩ := refreshTry_fails_of_stale db' now2 req2
      refreshTokenSecret u.id n e { u with refreshToken := RTField.tok rt2 }
      (htok ▸ h2) hfind2 hne
    exact ⟨_, refresh_wrapper_error db' now2 req2 e0 htry2⟩

/-- C1 witness: Alice's login token is exchanged once at time 6; presenting
it again at time 7 is rejected with a 401. -/
theorem refresh_token_single_use_witness :
    ∃ msg, refreshAccessToken dbRefreshed 7 ⟨some rtW, none⟩ =
      .error (.api 401 msg) :=
  refresh_token_single_use dbLoggedIn dbRefreshed 6 7 rtW refreshResW
    ⟨some rtW, none⟩ (by unfold TokenInv; decide) (by decide) (by decide)

/-- C2: a successful Login returns a body whose `refreshToken` exactly equals
the refresh token the same call stored on the logged-in user's record (the
body's `user` view carries that record's `_id`). -/
theorem login_refresh_token_matches_stored
    (db db' : DB) (now : Nat) (req : LoginReq) (res : HttpRes)
    (h : loginUser db now req = .ok (res, db')) :
    ∃ view atk rt u', res.data = ResBody.loginData view atk rt ∧
      db'.findById u'.id = some u' ∧ u'.refreshToken = RTField.tok rt ∧
      docLookup "_id" view = some (.vNat u'.id) := by
  unfold loginUser at h
  split at h
  · exact Except.noConfusion h
  split at h
  · exact Except.noConfusion h
  rename_i user hfound
  split at h
  · exact Except.noConfusion h
  split at h
  · exact Except.noConfusion h
  split at h
  · exact Except.noConfusion h
  rename_i a r db2 hgen
  split at h
  · exact Except.noConfusion h
  rename_i logged hlog
  have h3 := Except.ok.inj h
  simp only [Prod.mk.injEq] at h3
  obtain ⟨hres, hdb⟩ := h3
  obtain ⟨w, hw, ha, hr, hdbx⟩ := gen_ok_inv db now user.id a r db2 hgen
  have hwid : w.id = user.id := findById_id_eq db user.id w hw
  have hfind2 : db2.findById user.id =
      some { w with refreshToken := RTField.tok r } := by
    rw [hdbx, findById_set_nonce, findById_saveUser, hw]
    simp [hwid]
  rw [hfind2] at hlog
  have hlg : logged = { w with refreshToken := RTField.tok r } :=
    (Option.some.inj hlog).symm
  refine ⟨selectExcluding ["password", "refreshToken", "videoUpload",
      "watchHistory"] logged.toDoc, a, r,
    { w with refreshToken := RTField.tok r }, ?_, ?_, rfl, ?_⟩
  · rw [← hres]
  · rw [← hdb]
    show db2.findById w.id = _
    nth_rewrite 1 [hwid]
    exact hfind2
  · rw [hlg]
    exact docLookup_id_select _ _ (by decide)

/-- C2 witness: Alice's login at time 5. -/
theorem login_refresh_token_matches_stored_witness :
    ∃ view atk rt u', loginResW.data = ResBody.loginData view atk rt ∧
      dbLoggedIn.findById u'.id = some u' ∧
      u'.refreshToken = RTField.tok rt ∧
      docLookup "_id" view = some (.vNat u'.id) :=
  login_refresh_token_matches_stored dbAlice dbLoggedIn 5
    ⟨some "Alice", none, some "p1"⟩ loginResW (by decide)

/-- C4: a successful Logout removes the stored `refreshToken` field entirely
(the serialized document no longer carries the key, i.e. unset rather than
nulled), and every later Refresh presenting the token stored before the
Logout fails with a 401. -/
theorem logout_unsets_and_blocks_refresh
    (db db' : DB) (uid : Nat) (u : UserRec) (t : TokenStr) (res : HttpRes)
    (hinv : TokenInv db)
    (hu : db.findById uid = some u)
    (ht : u.refreshToken = RTField.tok t)
    (h : logoutUser db uid = .ok (res, db')) :
    (∃ u', db'.findById uid = some u' ∧ u'.refreshToken = RTField.unset ∧
      docLookup "refreshToken" u'.toDoc = none) ∧
    ∀ now2 req2, jsOrToken req2.cookieToken req2.bodyToken = some t →
      ∃ msg, refreshAccessToken db' now2 req2 = .error (.api 401 msg) := by
  unfold logoutUser at h
  have h3 := Except.ok.inj h
  simp only [Prod.mk.injEq] at h3
  obtain ⟨-, hdb⟩ := h3
  have huid : u.id = uid := findById_id_eq db uid u hu
  have hu' : db.users.find? (fun v => v.id = uid) = some u := hu
  have hfind' : db'.findById uid =
      some { u with refreshToken := RTField.unset } := by
    rw [← hdb]
    show (db.users.map _).find? _ = _
    rw [find_replace_pres db.users
      (fun v => { v with refreshToken := RTField.unset }) uid uid
      (fun v hv => hv), hu']
    simp [huid]
  refine ⟨⟨{ u with refreshToken := RTField.unset }, hfind', rfl, ?_⟩, ?_⟩
  · simp [docLookup, UserRec.toDoc]
  · intro now2 req2 hjs
    cases t with
    | raw s =>
        obtain ⟨e0, htry2⟩ := refreshTry_raw_fails db' now2 req2 s hjs
        exact ⟨_, refresh_wrapper_error db' now2 req2 e0 htry2⟩
    | signed s sub n e =>
        have hmem : u ∈ db.users := findById_mem db uid u hu
        have hok := hinv u hmem
        simp [rtOwnerOk, ht] at hok
        have hsub : sub = uid := by rw [hok.1, huid]
        have hne : ({ u with refreshToken := RTField.unset } :
            UserRec).refreshToken ≠
            RTField.tok (.signed s sub n e) := by simp
        obtain ⟨e0, htry2⟩ := refreshTry_fails_of_stale db' now2 req2
          s sub n e { u with refreshToken := RTField.unset } hjs
          (by rw [hsub]; exact hfind') hne
        exact ⟨_, refresh_wrapper_error db' now2 req2 e0 htry2⟩

/-- C4 witness: Alice logs out at store `dbLoggedIn`; refreshing with her
pre-logout token at time 7 then fails with a 401. -/
theorem logout_unsets_and_blocks_refresh_witness :
    ∃ msg, refreshAccessToken dbLoggedOut 7 ⟨some rtW, none⟩ =
      .error (.api 401 msg) :=
  (logout_unsets_and_blocks_refresh dbLoggedIn dbLoggedOut 1 aliceLoggedIn
      rtW logoutResW (by unfold TokenInv; decide) (by decide) rfl
      (by decide)).2
    7 ⟨some rtW, none⟩ (by decide)

/-- C8: a successful ChangePassword replaces exactly the stored password
hash: the caller's record afterwards is the old record with only `password`
changed (so `refreshToken` and every other field are untouched), and every
other stored record survives unchanged. -/
theorem update_password_frame
    (db db' : DB) (uid : Nat) (u : UserRec) (req : UpdatePasswordReq)
    (res : HttpRes) (np : String)
    (hu : db.findById uid = some u)
    (hnp : req.newPassword = some np)
    (h : updatePassword db (some uid) req = .ok (res, db')) :
    db'.findById uid = some { u with password := hashPassword np } ∧
    ∀ v ∈ db.users, v.id ≠ uid → v ∈ db'.users := by
  unfold updatePassword at h
  split at h
  · rename_i hnone
    simp [hu] at hnone
  rename_i user hfound
  simp [hu] at hfound
  subst hfound
  split at h
  · exact Except.noConfusion h
  split at h
  · exact Except.noConfusion h
  split at h
  · exact Except.noConfusion h
  split at h
  · exact Except.noConfusion h
  split at h
  · exact Except.noConfusion h
  rename_i np' hnp'
  rw [hnp] at hnp'
  rw [show np' = np from (Option.some.inj hnp').symm] at h
  have h3 := Except.ok.inj h
  simp only [Prod.mk.injEq] at h3
  obtain ⟨-, hdb⟩ := h3
  have huid : u.id = uid := findById_id_eq db uid u hu
  constructor
  · rw [← hdb, findById_saveUser, hu]
    simp [huid]
  · intro v hv hvne
    rw [← hdb]
    show v ∈ db.users.map _
    refine List.mem_map.mpr ⟨v, hv, ?_⟩
    rw [if_neg]
    rw [show ({ u with password := hashPassword np } : UserRec).id = uid
      from huid]
    exact hvne

/-- C8 witness: Alice changes `p1` to `p2` while logged in; her stored
record keeps its refresh token and all other fields. -/
theorem update_password_frame_witness :
    dbPw2.findById 1 =
      some { aliceLoggedIn with password := hashPassword "p2" } ∧
    ∀ v ∈ dbLoggedIn.users, v.id ≠ 1 → v ∈ dbPw2.users :=
  update_password_frame dbLoggedIn dbPw2 1 aliceLoggedIn
    ⟨none, none, some "p1", some "p2"⟩ pwResW "p2" (by decide) rfl (by decide)

end LearnBackend
